import Mathlib

/-!
Verification development for the geojson-vt-cpp tile slicer.

Part 1 models the projection pipeline of `src/include/mapbox/geojsonvt/convert.hpp`
(the overloaded `project` functions and `convert`).  Part 2 models the tiling
engine of `src/src/geojsonvt.cpp` (`toID`, `getTile`, `splitTile`'s stop logic,
`transformTile`, `isClippedSquare`).

Machine doubles are modelled as exact rationals; the transcendental library
functions `std::sin`, `std::log` and the constant `M_PI` are total on doubles
and are modelled as explicit parameters `msin`, `mlog`, `mpi`, since no
property below depends on their values.  Machine integer arithmetic is
modelled on `Nat`/`Int` with explicit reductions modulo `2 ^ 32` where the
C++ source computes in 32-bit types.
-/

namespace GeoJsonVt

namespace Convert

/-- Input geographic point, `mapbox::geometry::point<double>`: longitude `x`,
latitude `y`. -/
structure GeoPoint where
  x : ℚ
  y : ℚ
  deriving DecidableEq, Repr

/-- Projected point `vt_point`: coordinates plus the overloaded numeric slot
`z` used for simplification metadata. -/
structure VtPoint where
  x : ℚ
  y : ℚ
  z : ℚ
  deriving DecidableEq, Repr

/-- Projected line `vt_line_string`: a vector of `vt_point` plus the running
Manhattan length `dist` (field modelled from the spec data model, §3; the
defining header `types.hpp` is not under `src/`). -/
structure VtLine where
  points : List VtPoint
  dist : ℚ
  deriving DecidableEq, Repr

/-- Projected ring `vt_linear_ring`: a vector of `vt_point` plus the stored
`area` (field modelled from the spec data model, §3; the defining header
`types.hpp` is not under `src/`). -/
structure VtRing where
  points : List VtPoint
  area : ℚ
  deriving DecidableEq, Repr

/-- Input geometry variant `mapbox::geometry::geometry<double>`: the six
variants handled by `project` plus `geometry_collection`, which `project`
rejects. -/
inductive Geometry where
  | point : GeoPoint → Geometry
  | multiPoint : List GeoPoint → Geometry
  | lineString : List GeoPoint → Geometry
  | multiLineString : List (List GeoPoint) → Geometry
  | polygon : List (List GeoPoint) → Geometry
  | multiPolygon : List (List (List GeoPoint)) → Geometry
  | geometryCollection : List Geometry → Geometry

/-- Projected geometry variant `vt_geometry`. -/
inductive VtGeometry where
  | point : VtPoint → VtGeometry
  | multiPoint : List VtPoint → VtGeometry
  | lineString : VtLine → VtGeometry
  | multiLineString : List VtLine → VtGeometry
  | polygon : List VtRing → VtGeometry
  | multiPolygon : List (List VtRing) → VtGeometry

/-- Result of running a piece of C++ code: a value, a thrown exception
(`err`, with the exception message), or undefined behaviour (`ub`) such as
indexing a vector out of bounds.  `ub` is distinct from `err`: undefined
behaviour is not a raised error. -/
inductive PRes (α : Type) where
  | ok : α → PRes α
  | err : String → PRes α
  | ub : PRes α
  deriving DecidableEq, Repr

/-- True exactly when the computation raised (threw) an error. -/
def isErr {α : Type} : PRes α → Bool
  | .err _ => true
  | _ => false

/-- Map a pure function over a `PRes`. -/
def presFmap {α β : Type} (f : α → β) : PRes α → PRes β
  | .ok a => .ok (f a)
  | .err e => .err e
  | .ub => .ub

/-- Run a fallible function over each list element, stopping at the first
error or undefined behaviour (the C++ loops evaluate left to right). -/
def presMap {α β : Type} (f : α → PRes β) : List α → PRes (List β)
  | [] => .ok []
  | a :: rest =>
    match f a with
    | .ok b =>
      match presMap f rest with
      | .ok bs => .ok (b :: bs)
      | .err e => .err e
      | .ub => .ub
    | .err e => .err e
    | .ub => .ub

/-- Element read `pts[k]` (in-bounds in all defined executions below). -/
def getP (pts : List VtPoint) (k : Nat) : VtPoint :=
  pts.getD k ⟨0, 0, 0⟩

/-- Write `v` into the metadata slot `pts[k].z`, leaving `x`, `y` unchanged. -/
def setZ (pts : List VtPoint) (k : Nat) (v : ℚ) : List VtPoint :=
  pts.set k { getP pts k with z := v }

/-- Modelled from the spec: squared perpendicular distance of `p` to the
segment `a`-`b`, clipped to the segment endpoints (§4.2: "Perpendicular
distance uses the standard line-segment formula clipped to segment endpoints
when the projection falls outside [0, 1]"); the implementing header
`simplify.hpp` is not under `src/`. -/
def sqSegDist (p a b : VtPoint) : ℚ :=
  let dx := b.x - a.x
  let dy := b.y - a.y
  if dx ≠ 0 ∨ dy ≠ 0 then
    let t := ((p.x - a.x) * dx + (p.y - a.y) * dy) / (dx * dx + dy * dy)
    if 1 < t then (p.x - b.x) ^ 2 + (p.y - b.y) ^ 2
    else if 0 < t then (p.x - (a.x + dx * t)) ^ 2 + (p.y - (a.y + dy * t)) ^ 2
    else (p.x - a.x) ^ 2 + (p.y - a.y) ^ 2
  else (p.x - a.x) ^ 2 + (p.y - a.y) ^ 2

/-- Modelled from the spec (§4.2): the interior index of `(first, last)`
maximizing the squared perpendicular distance to the segment, together with
that distance (`0` when no interior point exceeds it). -/
def maxInterior (pts : List VtPoint) (first last : Nat) : Nat × ℚ :=
  (List.range' (first + 1) (last - first - 1)).foldl
    (fun acc k =>
      let d := sqSegDist (getP pts k) (getP pts first) (getP pts last)
      if acc.2 < d then (k, d) else acc)
    (first, 0)

/-- Modelled from the spec (§4.2): the Douglas-Peucker-like marking loop of
the Simplifier (`simplify.hpp`, not under `src/`).  For a work interval
`(first, last)`: find the interior index of largest squared perpendicular
distance; if it exceeds `sq`, store that distance in the point's metadata
slot and recurse into both halves; otherwise leave the interior unmarked.
`fuel` bounds the recursion depth; every interval pushed is strictly
shorter, so an initial fuel of the list length never runs out. -/
def markRec (sq : ℚ) : Nat → List VtPoint → Nat → Nat → List VtPoint
  | 0, pts, _, _ => pts
  | fuel + 1, pts, first, last =>
    if first + 1 < last then
      let km := maxInterior pts first last
      if sq < km.2 then
        markRec sq fuel (markRec sq fuel (setZ pts km.1 km.2) first km.1) km.1 last
      else pts
    else pts

/-- Modelled from the spec (§4.2): `simplify(points, tolerance)` — mark the
first and last points with metadata `1` ("always kept") and run the
recursive marker with squared tolerance over the whole range. -/
def simplifyMarks (tolerance : ℚ) (pts : List VtPoint) : List VtPoint :=
  markRec (tolerance * tolerance) pts.length
    (setZ (setZ pts 0 1) (pts.length - 1) 1) 0 (pts.length - 1)

/-- Projection of a single point, `project(const point<double>&)`:
spherical-Mercator into the unit square.  `msin`, `mlog`, `mpi` stand for
the double versions of `std::sin`, `std::log`, `M_PI`. -/
def projectPt (msin mlog : ℚ → ℚ) (mpi : ℚ) (p : GeoPoint) : VtPoint :=
  let sine := msin (p.y * mpi / 180)
  { x := p.x / 360 + 1 / 2
    y := max (min (1 / 2 - (1 / 4) * mlog ((1 + sine) / (1 - sine)) / mpi) 1) 0
    z := 0 }

/-- Sum of `f` over consecutive pairs of a list, as the C++ loops
`for (i = 0; i < len - 1; ++i)` accumulate `f result[i] result[i+1]`. -/
def pairSum (f : VtPoint → VtPoint → ℚ) : List VtPoint → ℚ
  | a :: b :: rest => f a b + pairSum f (b :: rest)
  | _ => 0

/-- Manhattan length accumulated by `project(const line_string<double>&, …)`. -/
def distSum (pts : List VtPoint) : ℚ :=
  pairSum (fun a b => |b.x - a.x| + |b.y - a.y|) pts

/-- Signed shoelace sum accumulated by `project(const linear_ring<double>&, …)`. -/
def shoelaceSum (pts : List VtPoint) : ℚ :=
  pairSum (fun a b => a.x * b.y - b.x * a.y) pts

/-- Guard for the C++ loop bound `i < len - 1` computed in `size_t`: when
`len = 0` the bound wraps to `2 ^ 64 - 1` and the loop body indexes the
result vector out of bounds.  The guard holds exactly when every access
`result[i]`, `result[i + 1]` performed by the loop is within bounds. -/
def pairLoopInBounds (len : Nat) : Prop :=
  (len + (2 ^ 64 - 1)) % 2 ^ 64 + 1 ≤ len

instance (len : Nat) : Decidable (pairLoopInBounds len) := by
  unfold pairLoopInBounds; infer_instance

/-- Model of `project(const line_string<double>& points, const double tolerance)`:
project each point, accumulate the Manhattan length over consecutive pairs,
then run the Simplifier (which only writes metadata slots).  When the input
is empty the distance loop indexes out of bounds: undefined behaviour. -/
def projectLine (msin mlog : ℚ → ℚ) (mpi : ℚ) (points : List GeoPoint)
    (tolerance : ℚ) : PRes VtLine :=
  let result := points.map (projectPt msin mlog mpi)
  if pairLoopInBounds points.length then
    .ok { points := simplifyMarks tolerance result, dist := distSum result }
  else .ub

/-- Model of `project(const linear_ring<double>& ring, const double tolerance)`:
project each point, accumulate the signed shoelace sum over consecutive
pairs, store `|area / 2|`, then run the Simplifier.  When the input is empty
the area loop indexes out of bounds: undefined behaviour. -/
def projectRing (msin mlog : ℚ → ℚ) (mpi : ℚ) (ring : List GeoPoint)
    (tolerance : ℚ) : PRes VtRing :=
  let result := ring.map (projectPt msin mlog mpi)
  if pairLoopInBounds ring.length then
    .ok { points := simplifyMarks tolerance result
          area := |shoelaceSum result / 2| }
  else .ub

/-- Model of `project(const ::geometry<double>& geom, const double tolerance)`:
dispatch on the variant; the six supported variants are projected, anything
else throws `std::runtime_error("Geometry type not supported")`. -/
def projectGeometry (msin mlog : ℚ → ℚ) (mpi : ℚ) (geom : Geometry)
    (tolerance : ℚ) : PRes VtGeometry :=
  match geom with
  | .point p => .ok (.point (projectPt msin mlog mpi p))
  | .multiPoint ps => .ok (.multiPoint (ps.map (projectPt msin mlog mpi)))
  | .lineString ls =>
    presFmap .lineString (projectLine msin mlog mpi ls tolerance)
  | .multiLineString lss =>
    presFmap .multiLineString
      (presMap (fun l => projectLine msin mlog mpi l tolerance) lss)
  | .polygon rs =>
    presFmap .polygon (presMap (fun r => projectRing msin mlog mpi r tolerance) rs)
  | .multiPolygon ps =>
    presFmap .multiPolygon
      (presMap (fun poly => presMap (fun r => projectRing msin mlog mpi r tolerance) poly) ps)
  | .geometryCollection _ => .err "Geometry type not supported"

/-- The six geometry variants `project` supports (everything except
`geometry_collection`). -/
def supportedVariant : Geometry → Bool
  | .geometryCollection _ => false
  | _ => true

/-- The `(x, y)` coordinates of a projected point, without the metadata
slot. -/
def xyOf (p : VtPoint) : ℚ × ℚ :=
  (p.x, p.y)

theorem map_xyOf_setZ (pts : List VtPoint) (k : Nat) (v : ℚ) :
    (setZ pts k v).map xyOf = pts.map xyOf := by
  induction pts generalizing k with
  | nil => rfl
  | cons a t ih =>
    cases k with
    | zero => simp [setZ, getP, xyOf]
    | succ k =>
      simp only [setZ, getP, List.getD_cons_succ, List.set_cons_succ, List.map_cons]
      exact congrArg _ (ih k)

theorem markRec_map_xy (sq : ℚ) (fuel : Nat) : ∀ pts first last,
    (markRec sq fuel pts first last).map xyOf = pts.map xyOf := by
  induction fuel with
  | zero => intro pts f l; rfl
  | succ fuel ih =>
    intro pts f l
    rw [markRec]
    dsimp only
    split
    · split
      · rw [ih, ih, map_xyOf_setZ]
      · rfl
    · rfl

theorem simplifyMarks_map_xy (tolerance : ℚ) (pts : List VtPoint) :
    (simplifyMarks tolerance pts).map xyOf = pts.map xyOf := by
  unfold simplifyMarks
  rw [markRec_map_xy, map_xyOf_setZ, map_xyOf_setZ]

theorem pairLoopInBounds_iff (len : Nat) : pairLoopInBounds len ↔ 1 ≤ len := by
  unfold pairLoopInBounds
  have h : (2 : ℕ) ^ 64 = 18446744073709551616 := by norm_num
  rw [h]
  omega

theorem isErr_presFmap {α β : Type} (f : α → β) (r : PRes α) :
    isErr (presFmap f r) = isErr r := by
  cases r <;> rfl

theorem isErr_projectLine (msin mlog : ℚ → ℚ) (mpi : ℚ) (points : List GeoPoint)
    (tolerance : ℚ) : isErr (projectLine msin mlog mpi points tolerance) = false := by
  unfold projectLine
  split <;> rfl

theorem isErr_projectRing (msin mlog : ℚ → ℚ) (mpi : ℚ) (ring : List GeoPoint)
    (tolerance : ℚ) : isErr (projectRing msin mlog mpi ring tolerance) = false := by
  unfold projectRing
  split <;> rfl

theorem isErr_presMap {α β : Type} (f : α → PRes β) (hf : ∀ a, isErr (f a) = false) :
    ∀ l : List α, isErr (presMap f l) = false := by
  intro l
  induction l with
  | nil => rfl
  | cons a rest ih =>
    have hfa := hf a
    cases h : f a with
    | ok b =>
      simp only [presMap, h]
      cases h2 : presMap f rest with
      | ok bs => rfl
      | err e => rw [h2] at ih; exact absurd ih (by simp [isErr])
      | ub => rfl
    | err e => rw [h] at hfa; simp [isErr] at hfa
    | ub => simp only [presMap, h]; rfl

/-- Helper for C7: `project(geometry, tolerance)` throws exactly on the
variants outside the six supported ones (the raise-iff half of the claim). -/
theorem projectGeometry_isErr_iff (msin mlog : ℚ → ℚ) (mpi : ℚ)
    (geom : Geometry) (tolerance : ℚ) :
    isErr (projectGeometry msin mlog mpi geom tolerance) = true ↔
      supportedVariant geom = false := by
  cases geom with
  | point p => simp [projectGeometry, supportedVariant, isErr]
  | multiPoint ps => simp [projectGeometry, supportedVariant, isErr]
  | lineString ls =>
    rw [projectGeometry, isErr_presFmap, isErr_projectLine]
    simp [supportedVariant]
  | multiLineString lss =>
    rw [projectGeometry, isErr_presFmap,
      isErr_presMap _ (fun l => isErr_projectLine msin mlog mpi l tolerance)]
    simp [supportedVariant]
  | polygon rs =>
    rw [projectGeometry, isErr_presFmap,
      isErr_presMap _ (fun r => isErr_projectRing msin mlog mpi r tolerance)]
    simp [supportedVariant]
  | multiPolygon ps =>
    rw [projectGeometry, isErr_presFmap,
      isErr_presMap _ (fun poly =>
        isErr_presMap _ (fun r => isErr_projectRing msin mlog mpi r tolerance) poly)]
    simp [supportedVariant]
  | geometryCollection gs => simp [projectGeometry, supportedVariant, isErr]

/-- Helper: on a non-empty line string `project(line_string, tolerance)`
performs only in-bounds accesses and produces the projected line. -/
theorem projectLine_ok (msin mlog : ℚ → ℚ) (mpi : ℚ) (points : List GeoPoint)
    (tolerance : ℚ) (h : points ≠ []) :
    projectLine msin mlog mpi points tolerance =
      .ok { points := simplifyMarks tolerance (points.map (projectPt msin mlog mpi)),
            dist := distSum (points.map (projectPt msin mlog mpi)) } := by
  unfold projectLine
  rw [if_pos ((pairLoopInBounds_iff _).2 (by
    cases points with
    | nil => exact absurd rfl h
    | cons a t => simp))]

/-- Helper: on a non-empty ring `project(linear_ring, tolerance)` performs
only in-bounds accesses and produces the projected ring. -/
theorem projectRing_ok (msin mlog : ℚ → ℚ) (mpi : ℚ) (ring : List GeoPoint)
    (tolerance : ℚ) (h : ring ≠ []) :
    projectRing msin mlog mpi ring tolerance =
      .ok { points := simplifyMarks tolerance (ring.map (projectPt msin mlog mpi)),
            area := |shoelaceSum (ring.map (projectPt msin mlog mpi)) / 2| } := by
  unfold projectRing
  rw [if_pos ((pairLoopInBounds_iff _).2 (by
    cases ring with
    | nil => exact absurd rfl h
    | cons a t => simp))]

/-- Helper: a `presMap` over elements that all succeed succeeds. -/
theorem presMap_ok {α β : Type} (f : α → PRes β) (l : List α)
    (hf : ∀ a ∈ l, ∃ b, f a = PRes.ok b) : ∃ bs, presMap f l = PRes.ok bs := by
  induction l with
  | nil => exact ⟨[], rfl⟩
  | cons a rest ih =>
    obtain ⟨b, hb⟩ := hf a (by simp)
    obtain ⟨bs, hbs⟩ := ih (fun a ha => hf a (by simp [ha]))
    exact ⟨b :: bs, by simp only [presMap, hb, hbs]⟩

/-- Geometries all of whose line strings and rings are non-empty, so that
the projection loops' `size_t` bound `len - 1` does not wrap and every index
access stays within bounds (cf. C9). -/
def nonemptyParts : Geometry → Bool
  | .point _ => true
  | .multiPoint _ => true
  | .lineString ls => !ls.isEmpty
  | .multiLineString lss => lss.all (fun l => !l.isEmpty)
  | .polygon rs => rs.all (fun r => !r.isEmpty)
  | .multiPolygon ps => ps.all (fun poly => poly.all (fun r => !r.isEmpty))
  | .geometryCollection _ => true

/-- C7 counterexample: the supported `line_string` variant does not always
return a projected geometry — on the empty line string the distance loop of
`project(line_string, …)` indexes the result vector out of bounds
(undefined behaviour), so `project` of that geometry produces no value. -/
theorem c7_empty_lineString_no_geometry :
    projectGeometry (fun _ => 0) (fun _ => 0) 0 (Geometry.lineString []) 0 =
      PRes.ub := by
  with_unfolding_all rfl

/-- C7 (amended): `project(geometry, tolerance)` raises an error if and only
if the input geometry is none of the six supported variants (Point,
MultiPoint, LineString, MultiLineString, Polygon, MultiPolygon); and every
supported variant whose line strings and rings are all non-empty returns a
projected geometry without raising. -/
theorem c7_projectGeometry_raises_iff_returns_ok (msin mlog : ℚ → ℚ)
    (mpi : ℚ) (geom : Geometry) (tolerance : ℚ) :
    (isErr (projectGeometry msin mlog mpi geom tolerance) = true ↔
      supportedVariant geom = false) ∧
    (supportedVariant geom = true → nonemptyParts geom = true →
      ∃ v, projectGeometry msin mlog mpi geom tolerance = PRes.ok v) := by
  refine ⟨projectGeometry_isErr_iff msin mlog mpi geom tolerance, ?_⟩
  intro hsup hne
  cases geom with
  | point p => exact ⟨_, rfl⟩
  | multiPoint ps => exact ⟨_, rfl⟩
  | lineString ls =>
    rw [projectGeometry,
      projectLine_ok msin mlog mpi ls tolerance (by simpa [nonemptyParts] using hne)]
    exact ⟨_, rfl⟩
  | multiLineString lss =>
    simp only [nonemptyParts, List.all_eq_true] at hne
    obtain ⟨bs, hbs⟩ := presMap_ok (fun l => projectLine msin mlog mpi l tolerance) lss
      (fun l hl => ⟨_, projectLine_ok msin mlog mpi l tolerance
        (by simpa using hne l hl)⟩)
    rw [projectGeometry, hbs]
    exact ⟨_, rfl⟩
  | polygon rs =>
    simp only [nonemptyParts, List.all_eq_true] at hne
    obtain ⟨bs, hbs⟩ := presMap_ok (fun r => projectRing msin mlog mpi r tolerance) rs
      (fun r hr => ⟨_, projectRing_ok msin mlog mpi r tolerance
        (by simpa using hne r hr)⟩)
    rw [projectGeometry, hbs]
    exact ⟨_, rfl⟩
  | multiPolygon ps =>
    simp only [nonemptyParts, List.all_eq_true] at hne
    obtain ⟨bs, hbs⟩ := presMap_ok
      (fun poly => presMap (fun r => projectRing msin mlog mpi r tolerance) poly) ps
      (fun poly hpoly => presMap_ok (fun r => projectRing msin mlog mpi r tolerance) poly
        (fun r hr => ⟨_, projectRing_ok msin mlog mpi r tolerance
          (by simpa using hne poly hpoly r hr)⟩))
    rw [projectGeometry, hbs]
    exact ⟨_, rfl⟩
  | geometryCollection gs => cases hsup

theorem c7_projectGeometry_raises_iff_returns_ok_witness :
    (isErr (projectGeometry (fun _ => 0) (fun _ => 0) 0
        (Geometry.lineString [⟨0, 0⟩]) 0) = true ↔
      supportedVariant (Geometry.lineString [⟨0, 0⟩]) = false) ∧
    (supportedVariant (Geometry.lineString [⟨0, 0⟩]) = true →
      nonemptyParts (Geometry.lineString [⟨0, 0⟩]) = true →
      ∃ v, projectGeometry (fun _ => 0) (fun _ => 0) 0
        (Geometry.lineString [⟨0, 0⟩]) 0 = PRes.ok v) :=
  c7_projectGeometry_raises_iff_returns_ok (fun _ => 0) (fun _ => 0) 0
    (Geometry.lineString [⟨0, 0⟩]) 0

/-- C8: whenever `project(linear_ring, tolerance)` produces a ring, the
stored `area` equals the absolute value of the signed shoelace sum over
consecutive pairs of the projected points, divided by 2. -/
theorem c8_projectRing_area (msin mlog : ℚ → ℚ) (mpi : ℚ) (ring : List GeoPoint)
    (tolerance : ℚ) (l : VtRing)
    (h : projectRing msin mlog mpi ring tolerance = .ok l) :
    l.area = |shoelaceSum (ring.map (projectPt msin mlog mpi))| / 2 := by
  unfold projectRing at h
  split at h
  · cases h
    show |shoelaceSum (ring.map (projectPt msin mlog mpi)) / 2| = _
    rw [abs_div]
    norm_num
  · cases h

theorem c8_projectRing_area_witness :
    (⟨[⟨(1 : ℚ) / 2, 1 / 2, 1⟩], (0 : ℚ)⟩ : VtRing).area
      = |shoelaceSum ([(⟨0, 0⟩ : GeoPoint)].map
          (projectPt (fun _ => 0) (fun _ => 0) 0))| / 2 :=
  c8_projectRing_area (fun _ => 0) (fun _ => 0) 0 [⟨0, 0⟩] 0
    ⟨[⟨(1 : ℚ) / 2, 1 / 2, 1⟩], (0 : ℚ)⟩ (by with_unfolding_all decide)

/-- C9 counterexample: on the empty line string the distance loop's `size_t`
bound `len - 1` wraps around, and the loop indexes the result vector out of
bounds — the claim that every index access is within bounds (including for
the empty line string) is false. -/
theorem c9_empty_line_out_of_bounds :
    projectLine (fun _ => 0) (fun _ => 0) 0 [] 0 = PRes.ub := by
  with_unfolding_all decide

/-- C9 (amended): for every line string with at least one point,
`project(line_string, tolerance)` performs only in-bounds accesses and
returns the pointwise-projected line (same coordinates, with simplification
marks) whose `dist` equals the sum of `|Δx| + |Δy|` over consecutive pairs
of projected points. -/
theorem c9_projectLine_dist (msin mlog : ℚ → ℚ) (mpi : ℚ)
    (points : List GeoPoint) (tolerance : ℚ) (h : points ≠ []) :
    projectLine msin mlog mpi points tolerance =
      .ok { points := simplifyMarks tolerance (points.map (projectPt msin mlog mpi)),
            dist := distSum (points.map (projectPt msin mlog mpi)) } ∧
    (simplifyMarks tolerance (points.map (projectPt msin mlog mpi))).map xyOf
      = (points.map (projectPt msin mlog mpi)).map xyOf := by
  refine ⟨?_, simplifyMarks_map_xy _ _⟩
  unfold projectLine
  rw [if_pos ((pairLoopInBounds_iff _).2 (by
    cases points with
    | nil => exact absurd rfl h
    | cons a t => simp))]

theorem c9_projectLine_dist_witness :
    projectLine (fun _ => 0) (fun _ => 0) 0 [⟨0, 0⟩] 0 =
      .ok { points := simplifyMarks 0 ([(⟨0, 0⟩ : GeoPoint)].map
              (projectPt (fun _ => 0) (fun _ => 0) 0)),
            dist := distSum ([(⟨0, 0⟩ : GeoPoint)].map
              (projectPt (fun _ => 0) (fun _ => 0) 0)) } ∧
    (simplifyMarks 0 ([(⟨0, 0⟩ : GeoPoint)].map
        (projectPt (fun _ => 0) (fun _ => 0) 0))).map xyOf
      = ([(⟨0, 0⟩ : GeoPoint)].map (projectPt (fun _ => 0) (fun _ => 0) 0)).map xyOf :=
  c9_projectLine_dist (fun _ => 0) (fun _ => 0) 0 [⟨0, 0⟩] 0 (by decide)

end Convert

namespace Tiler

/-- Modelled from the spec (§3 data model; the defining header `types.hpp`
is not under `src/`): a projected point with the overloaded numeric slot
`z`. -/
structure ProjectedPoint where
  x : ℚ
  y : ℚ
  z : ℚ
  deriving DecidableEq, Repr

/-- Modelled from the spec (§3): feature type with Multi* collapsed. -/
inductive ProjectedFeatureType where
  | Point
  | LineString
  | Polygon
  deriving DecidableEq, Repr

/-- Modelled from the spec (§3): an ordered point sequence with its stored
area (and the Manhattan length slot used for lines). -/
structure ProjectedRing where
  points : List ProjectedPoint
  area : ℚ
  dist : ℚ
  deriving DecidableEq, Repr

/-- Modelled from the spec (§3): tagged union of points and rings. -/
inductive ProjectedGeometry where
  | points : List ProjectedPoint → ProjectedGeometry
  | rings : List ProjectedRing → ProjectedGeometry
  deriving DecidableEq, Repr

/-- Modelled from the spec (§3): a projected feature with its cached
bounding box. -/
structure ProjectedFeature where
  geometry : ProjectedGeometry
  type : ProjectedFeatureType
  min : ProjectedPoint
  max : ProjectedPoint
  deriving DecidableEq, Repr

/-- Tile-local integer point (signed 16-bit in C++, exact here: the stored
values of defined executions fit). -/
structure TilePoint where
  x : ℤ
  y : ℤ
  deriving DecidableEq, Repr

/-- Modelled from the spec (§3): tile feature type. -/
inductive TileFeatureType where
  | Point
  | LineString
  | Polygon
  deriving DecidableEq, Repr

/-- Modelled from the spec (§3): tile-local geometry, points or rings. -/
inductive TileGeometry where
  | points : List TilePoint → TileGeometry
  | rings : List (List TilePoint) → TileGeometry
  deriving DecidableEq, Repr

/-- Modelled from the spec (§3): a feature stored on a tile, with its
projected geometry and its lazily produced tile-local geometry. -/
structure TileFeature where
  geometry : ProjectedGeometry
  type : TileFeatureType
  tileGeometry : TileGeometry
  deriving DecidableEq, Repr

/-- Modelled from the spec (§3): a tile of the pyramid. -/
structure Tile where
  features : List TileFeature
  z2 : Nat
  tx : Nat
  ty : Nat
  numFeatures : Nat
  numPoints : Nat
  numSimplified : Nat
  min : ProjectedPoint
  max : ProjectedPoint
  source : List ProjectedFeature
  transformed : Bool
  deriving DecidableEq, Repr

/-- Variant read `geometry.get<ProjectedPoints>()`; on the `rings`
alternative the C++ `get` throws, which no defined execution below reaches —
modelled as the empty list. -/
def getProjPoints : ProjectedGeometry → List ProjectedPoint
  | .points ps => ps
  | .rings _ => []

/-- Variant read `geometry.get<ProjectedRings>()`; on the `points`
alternative the C++ `get` throws, which never produces a tile — modelled as
the empty list. -/
def getProjRings : ProjectedGeometry → List ProjectedRing
  | .rings rs => rs
  | .points _ => []

/-- Variant read `tileGeometry.get<TilePoints>()`, same convention. -/
def getTilePoints : TileGeometry → List TilePoint
  | .points ps => ps
  | .rings _ => []

/-- Model of `GeoJSONVT::toID(z, x, y)`: the C++ source computes
`(((1 << z) * y + x) * 32) + z` where `1 << z` has type `int`; the usual
arithmetic conversions make every intermediate a 32-bit unsigned value, so
each step is reduced modulo `2 ^ 32` before the result widens to `uint64_t`
on return. -/
def toID (z x y : Nat) : Nat :=
  (((2 ^ z % 2 ^ 32) * y % 2 ^ 32 + x) % 2 ^ 32 * 32 % 2 ^ 32 + z) % 2 ^ 32

/-- Model of `std::round` on doubles: round to nearest, halfway cases away
from zero. -/
def cround (q : ℚ) : ℤ :=
  if 0 ≤ q then ⌊q + 1 / 2⌋ else ⌈q - 1 / 2⌉

/-- Model of `GeoJSONVT::transformPoint(p, extent, z2, tx, ty)`:
`round(extent * (p.x * z2 - tx))` and the same for `y`. -/
def transformPoint (p : ProjectedPoint) (extent : Nat) (z2 tx ty : Nat) : TilePoint :=
  { x := cround ((extent : ℚ) * (p.x * (z2 : ℚ) - (tx : ℚ)))
    y := cround ((extent : ℚ) * (p.y * (z2 : ℚ) - (ty : ℚ))) }

/-- One feature of `GeoJSONVT::transformTile`'s loop: a Point feature
appends the transformed points to the existing `TilePoints` alternative; any
other feature resets `tileGeometry` to freshly built `TileRings`. -/
def transformFeature (extent z2 tx ty : Nat) (f : TileFeature) : TileFeature :=
  if f.type = TileFeatureType.Point then
    { f with tileGeometry := .points (getTilePoints f.tileGeometry ++
        (getProjPoints f.geometry).map (fun p => transformPoint p extent z2 tx ty)) }
  else
    { f with tileGeometry := .rings ((getProjRings f.geometry).map
        (fun r => r.points.map (fun p => transformPoint p extent z2 tx ty))) }

/-- Model of `GeoJSONVT::transformTile(tile, extent)`: return immediately when the
tile is already transformed, otherwise build the tile-local geometry of
every feature and set the `transformed` flag. -/
def transformTile (tile : Tile) (extent : Nat) : Tile :=
  if tile.transformed then tile
  else
    { tile with
        features := tile.features.map (transformFeature extent tile.z2 tile.tx tile.ty)
        transformed := true }

/-- Model of `GeoJSONVT::isClippedSquare(tile, extent, buffer)`: the tile's retained
`source` must be a single Polygon feature whose single 5-point ring
transforms onto the buffered tile corners.  The C++ reads `rings.front()`
without checking for emptiness; that read is undefined behaviour on an
empty ring vector and in particular never yields `true` — modelled as
`false`. -/
def isClippedSquare (tile : Tile) (extent buffer : Nat) : Bool :=
  match tile.source with
  | [feature] =>
    if feature.type ≠ ProjectedFeatureType.Polygon then false
    else
      let rings := getProjRings feature.geometry
      if rings.length > 1 then false
      else
        match rings with
        | [] => false
        | ring :: _ =>
          if ring.points.length ≠ 5 then false
          else ring.points.all fun pt =>
            let p := transformPoint pt extent tile.z2 tile.tx tile.ty
            decide ((p.x = -(buffer : ℤ) ∨ p.x = (extent : ℤ) + (buffer : ℤ)) ∧
              (p.y = -(buffer : ℤ) ∨ p.y = (extent : ℤ) + (buffer : ℤ)))
  | _ => false

/-- The clipped-square property as the spec words it (§4.7): `source` holds
exactly one feature, of type Polygon, with exactly one ring of exactly five
points, and after tile-transform every point's coordinates lie on
`{-buffer, extent + buffer}` in both axes. -/
def clippedSquareSpec (tile : Tile) (extent buffer : Nat) : Prop :=
  ∃ feature ring,
    tile.source = [feature] ∧
    feature.type = ProjectedFeatureType.Polygon ∧
    feature.geometry = ProjectedGeometry.rings [ring] ∧
    ring.points.length = 5 ∧
    ∀ pt ∈ ring.points,
      ((transformPoint pt extent tile.z2 tile.tx tile.ty).x = -(buffer : ℤ) ∨
        (transformPoint pt extent tile.z2 tile.tx tile.ty).x = (extent : ℤ) + (buffer : ℤ)) ∧
      ((transformPoint pt extent tile.z2 tile.tx tile.ty).y = -(buffer : ℤ) ∨
        (transformPoint pt extent tile.z2 tile.tx tile.ty).y = (extent : ℤ) + (buffer : ℤ))

/-- C2: `isClippedSquare(tile, extent, buffer)` returns `true` exactly when
the spec's clipped-square property holds. -/
theorem c2_isClippedSquare_iff (tile : Tile) (extent buffer : Nat) :
    isClippedSquare tile extent buffer = true ↔ clippedSquareSpec tile extent buffer := by
  unfold isClippedSquare clippedSquareSpec
  cases hs : tile.source with
  | nil => simp
  | cons f rest =>
    cases rest with
    | cons g rest2 => simp
    | nil =>
      simp only [List.cons.injEq, and_true]
      constructor
      · intro h
        by_cases ht : f.type = ProjectedFeatureType.Polygon
        · rw [if_neg (show ¬f.type ≠ ProjectedFeatureType.Polygon from by simp [ht])] at h
          cases hg : f.geometry with
          | points ps =>
            rw [hg] at h
            simp only [getProjRings] at h
            simp at h
          | rings rs =>
            rw [hg] at h
            simp only [getProjRings] at h
            cases rs with
            | nil => simp at h
            | cons ring rest3 =>
              cases rest3 with
              | cons ring2 rest4 => simp at h
              | nil =>
                rw [if_neg (show ¬([ring].length > 1) from by simp)] at h
                dsimp only at h
                by_cases hl : ring.points.length = 5
                · rw [if_neg (show ¬(ring.points.length ≠ 5) from by simp [hl])] at h
                  rw [List.all_eq_true] at h
                  exact ⟨f, ring, rfl, ht, hg, hl, fun pt hpt => by simpa using h pt hpt⟩
                · rw [if_pos hl] at h
                  cases h
        · rw [if_pos ht] at h
          cases h
      · rintro ⟨feature, ring, rfl, ht, hg, hl, hpts⟩
        rw [if_neg (show ¬f.type ≠ ProjectedFeatureType.Polygon from by simp [ht])]
        rw [hg]
        simp only [getProjRings]
        rw [if_neg (show ¬([ring].length > 1) from by simp)]
        rw [if_neg (show ¬(ring.points.length ≠ 5) from by simp [hl])]
        rw [List.all_eq_true]
        intro pt hpt
        simpa using hpts pt hpt

/-- C1 (code bug): the claim says `toID(z, x, y)` equals
`(((2^z)·y + x)·32) + z` as a 64-bit value whenever `y·2^z + x` fits in 59
bits, and is injective there.  At `z = 0, x = 0, y = 2^27` the claimed value
is `2^32`, but the 32-bit intermediates wrap and the code returns `0` — the
same id as tile `(0, 0, 0)`, so injectivity fails as well. -/
theorem c1_toID_wraps_32bit :
    toID 0 0 134217728 = 0 ∧ toID 0 0 0 = 0 ∧
      ((2 ^ 0 * 134217728 + 0) * 32 + 0 : ℕ) = 4294967296 := by
  refine ⟨?_, ?_, ?_⟩ <;> decide

/-- C4: `transformTile` is idempotent — the second call returns the tile of
the first call unchanged (so the integer geometry is byte-identical), the
`transformed` flag is `true` after any call, and a tile already transformed
is never modified (the flag transitions `false → true` exactly once and is
never reset). -/
theorem c4_transformTile_idempotent (tile : Tile) (extent extent' : Nat) :
    transformTile (transformTile tile extent) extent' = transformTile tile extent ∧
    (transformTile tile extent).transformed = true ∧
    (tile.transformed = true → transformTile tile extent = tile) := by
  refine ⟨?_, ?_, ?_⟩
  · by_cases h : tile.transformed <;> simp [transformTile, h]
  · by_cases h : tile.transformed <;> simp [transformTile, h]
  · intro h; simp [transformTile, h]

theorem c4_transformTile_idempotent_witness :
    (transformTile (transformTile
        { features := [], z2 := 1, tx := 0, ty := 0, numFeatures := 0,
          numPoints := 0, numSimplified := 0, min := ⟨0, 0, 0⟩, max := ⟨1, 1, 0⟩,
          source := [], transformed := false } 4096) 4096 =
      transformTile
        { features := [], z2 := 1, tx := 0, ty := 0, numFeatures := 0,
          numPoints := 0, numSimplified := 0, min := ⟨0, 0, 0⟩, max := ⟨1, 1, 0⟩,
          source := [], transformed := false } 4096) ∧
    (transformTile
        { features := [], z2 := 1, tx := 0, ty := 0, numFeatures := 0,
          numPoints := 0, numSimplified := 0, min := ⟨0, 0, 0⟩, max := ⟨1, 1, 0⟩,
          source := [], transformed := false } 4096).transformed = true ∧
    (({ features := [], z2 := 1, tx := 0, ty := 0, numFeatures := 0,
        numPoints := 0, numSimplified := 0, min := ⟨0, 0, 0⟩, max := ⟨1, 1, 0⟩,
        source := [], transformed := false } : Tile).transformed = true →
      transformTile
        { features := [], z2 := 1, tx := 0, ty := 0, numFeatures := 0,
          numPoints := 0, numSimplified := 0, min := ⟨0, 0, 0⟩, max := ⟨1, 1, 0⟩,
          source := [], transformed := false } 4096 =
        { features := [], z2 := 1, tx := 0, ty := 0, numFeatures := 0,
          numPoints := 0, numSimplified := 0, min := ⟨0, 0, 0⟩, max := ⟨1, 1, 0⟩,
          source := [], transformed := false }) :=
  c4_transformTile_idempotent
    { features := [], z2 := 1, tx := 0, ty := 0, numFeatures := 0,
      numPoints := 0, numSimplified := 0, min := ⟨0, 0, 0⟩, max := ⟨1, 1, 0⟩,
      source := [], transformed := false } 4096 4096

/-- Modelled from the spec (§6 configuration table; `Options` lives in the
header `geojsonvt.hpp`, not under `src/`). -/
structure Options where
  maxZoom : Nat
  indexMaxZoom : Nat
  indexMaxPoints : Nat
  tolerance : ℚ
  extent : Nat
  buffer : Nat
  solidChildren : Bool
  deriving DecidableEq, Repr

/-- The mutable state a `GeoJSONVT` object carries across `getTile` calls:
the tile index `tiles` (a map from packed id to tile, modelled as an
association list) and the configuration. -/
structure GState where
  tiles : List (Nat × Tile)
  options : Options
  deriving DecidableEq, Repr

/-- Map lookup `tiles.find(id)`. -/
def lookupTile (tiles : List (Nat × Tile)) (id : Nat) : Option Tile :=
  (tiles.find? (fun p => p.1 == id)).map (fun p => p.2)

/-- Map write `tiles[id] = t` for a key already present (the in-place
mutations of a stored tile). -/
def updateTile (tiles : List (Nat × Tile)) (id : Nat) (t : Tile) : List (Nat × Tile) :=
  tiles.map (fun p => if p.1 = id then (id, t) else p)

/-- Map write `tiles[id] = t` inserting the key when absent. -/
def insertTile (tiles : List (Nat × Tile)) (id : Nat) (t : Tile) : List (Nat × Tile) :=
  if (lookupTile tiles id).isSome then updateTile tiles id t else (id, t) :: tiles

/-- The behaviour of `GeoJSONVT::splitTile(features, z, x, y, cz, cx, cy)`
as a state transformer.  The `getTile` theorems below hold for every such
transformer, so they do not depend on the subdivision details (whose
`Clip::clip` and `Tile::createTile` are not under `src/`). -/
abbrev SplitFn :=
  GState → List ProjectedFeature → Nat → Nat → Nat → Nat → Nat → Nat → GState

/-- The wrap of the requested x coordinate at the top of `getTile`:
`x = ((x % z2) + z2) % z2` with `uint32_t z2 = 1 << z`. -/
def wrapX (z x : Nat) : Nat :=
  (x % (2 ^ z % 2 ^ 32) + (2 ^ z % 2 ^ 32)) % (2 ^ z % 2 ^ 32)

/-- The ancestor-search loop of `getTile`: starting from `(z, x, y)`,
repeatedly halve the coordinates and decrement the zoom, returning the
first (nearest) ancestor present in the index together with its stored
tile, or `none` after level 0 has been checked. -/
def findAncestor (tiles : List (Nat × Tile)) :
    Nat → Nat → Nat → Option (Nat × Nat × Nat × Tile)
  | 0, _, _ => none
  | z0 + 1, x0, y0 =>
    match lookupTile tiles (toID z0 (x0 / 2) (y0 / 2)) with
    | some t => some (z0, x0 / 2, y0 / 2, t)
    | none => findAncestor tiles z0 (x0 / 2) (y0 / 2)

/-- The tail of `getTile` after a drill-down attempt: if the requested id
is still absent return the shared empty tile (modelled as `none`),
otherwise transform the stored tile in place and return it. -/
def finishLookup (st : GState) (id : Nat) : Option Tile × GState :=
  match lookupTile st.tiles id with
  | none => (none, st)
  | some t =>
    (some (transformTile t st.options.extent),
      { st with tiles := updateTile st.tiles id (transformTile t st.options.extent) })

/-- Model of `GeoJSONVT::getTile` after the x wrap: return the indexed tile if
present; otherwise walk up to the nearest indexed ancestor (empty tile if
none); if the ancestor still holds its source, either return it directly
when it is a clipped square, or drill down via `split` and look the
requested id up again. -/
def getTileWrapped (split : SplitFn) (st : GState) (z xw y : Nat) :
    Option Tile × GState :=
  match lookupTile st.tiles (toID z xw y) with
  | some t =>
    (some (transformTile t st.options.extent),
      { st with tiles := updateTile st.tiles (toID z xw y) (transformTile t st.options.extent) })
  | none =>
    match findAncestor st.tiles z xw y with
    | none => (none, st)
    | some (z0, x0, y0, parent) =>
      if parent.source ≠ [] then
        if isClippedSquare parent st.options.extent st.options.buffer then
          (some (transformTile parent st.options.extent),
            { st with tiles := updateTile st.tiles (toID z0 x0 y0) (transformTile parent st.options.extent) })
        else finishLookup (split st parent.source z0 x0 y0 z xw y) (toID z xw y)
      else finishLookup st (toID z xw y)

/-- Model of `GeoJSONVT::getTile(z, x, y)`: wrap the x coordinate modulo `2^z`, then
proceed as `getTileWrapped`. -/
def getTile (split : SplitFn) (st : GState) (z x y : Nat) : Option Tile × GState :=
  getTileWrapped split st z (wrapX z x) y

/-- C3: for every valid zoom (`z ≤ 31`, so that the `uint32_t` shift and
modulus are defined), `getTile` gives the same result — returned tile and
resulting state — on `x` and on `x + 2^z`: the antimeridian wrap. -/
theorem c3_getTile_wrap (split : SplitFn) (st : GState) (z x y : Nat)
    (hz : z ≤ 31) :
    getTile split st z (x + 2 ^ z) y = getTile split st z x y := by
  unfold getTile
  have h2 : 2 ^ z % 2 ^ 32 = 2 ^ z :=
    Nat.mod_eq_of_lt (Nat.pow_lt_pow_right (by norm_num) (by omega))
  have hw : wrapX z (x + 2 ^ z) = wrapX z x := by
    unfold wrapX
    rw [h2, Nat.add_mod_right x (2 ^ z)]
  rw [hw]

theorem c3_getTile_wrap_witness :
    getTile (fun st _ _ _ _ _ _ _ => st)
        ⟨[], ⟨18, 5, 100000, 3, 4096, 64, false⟩⟩ 1 (0 + 2 ^ 1) 0 =
      getTile (fun st _ _ _ _ _ _ _ => st)
        ⟨[], ⟨18, 5, 100000, 3, 4096, 64, false⟩⟩ 1 0 0 :=
  c3_getTile_wrap (fun st _ _ _ _ _ _ _ => st)
    ⟨[], ⟨18, 5, 100000, 3, 4096, 64, false⟩⟩ 1 0 0 (by decide)

/-- C6: when the requested tile (after wrapping) is absent from the index
and either no ancestor is indexed, or the nearest indexed ancestor cannot
drill down (empty retained source) or drilling down still does not produce
the requested id, `getTile` returns the shared empty-tile sentinel. -/
theorem c6_getTile_missing_empty (split : SplitFn) (st : GState) (z x y : Nat)
    (hid : lookupTile st.tiles (toID z (wrapX z x) y) = none)
    (hcase : findAncestor st.tiles z (wrapX z x) y = none ∨
      ∃ z0 x0 y0 parent,
        findAncestor st.tiles z (wrapX z x) y = some (z0, x0, y0, parent) ∧
          (parent.source = [] ∨
            (isClippedSquare parent st.options.extent st.options.buffer = false ∧
              lookupTile (split st parent.source z0 x0 y0 z (wrapX z x) y).tiles
                (toID z (wrapX z x) y) = none))) :
    (getTile split st z x y).1 = none := by
  unfold getTile getTileWrapped
  rw [hid]
  rcases hcase with hanc | ⟨z0, x0, y0, parent, hanc, hrest⟩
  · rw [hanc]
  · rw [hanc]
    dsimp only
    rcases hrest with hsrc | ⟨hsq, hdrill⟩
    · rw [if_neg (by simpa using hsrc)]
      unfold finishLookup
      rw [hid]
    · by_cases hsrc : parent.source = []
      · rw [if_neg (by simpa using hsrc)]
        unfold finishLookup
        rw [hid]
      · rw [if_pos hsrc, if_neg (by simp [hsq])]
        unfold finishLookup
        rw [hdrill]

theorem c6_getTile_missing_empty_witness :
    (getTile (fun st _ _ _ _ _ _ _ => st)
        ⟨[], ⟨18, 5, 100000, 3, 4096, 64, false⟩⟩ 0 0 0).1 = none :=
  c6_getTile_missing_empty (fun st _ _ _ _ _ _ _ => st)
    ⟨[], ⟨18, 5, 100000, 3, 4096, 64, false⟩⟩ 0 0 0 rfl (Or.inl rfl)

/-- C10: when the requested tile is absent but the nearest indexed ancestor
still holds a non-empty source and is a clipped square, `getTile` returns
that ancestor itself (transformed, at the ancestor's zoom level) instead of
drilling down or returning the empty tile. -/
theorem c10_clipped_square_parent (split : SplitFn) (st : GState)
    (z x y z0 x0 y0 : Nat) (parent : Tile)
    (hid : lookupTile st.tiles (toID z (wrapX z x) y) = none)
    (hanc : findAncestor st.tiles z (wrapX z x) y = some (z0, x0, y0, parent))
    (hsrc : parent.source ≠ [])
    (hsq : isClippedSquare parent st.options.extent st.options.buffer = true) :
    (getTile split st z x y).1 = some (transformTile parent st.options.extent) := by
  unfold getTile getTileWrapped
  rw [hid, hanc]
  dsimp only
  rw [if_pos hsrc, if_pos hsq]

/-- A projected ring tracing the unit square, transforming onto the buffered
tile corners of a `z = 0` tile with `extent = 1`, `buffer = 0`. -/
def squareRing : ProjectedRing :=
  { points := [⟨0, 0, 0⟩, ⟨1, 0, 0⟩, ⟨1, 1, 0⟩, ⟨0, 1, 0⟩, ⟨0, 0, 0⟩],
    area := 1, dist := 0 }

/-- A root tile whose retained source is a single full-coverage polygon: a
clipped square. -/
def squareParent : Tile :=
  { features := [], z2 := 1, tx := 0, ty := 0, numFeatures := 1, numPoints := 5,
    numSimplified := 5, min := ⟨0, 0, 0⟩, max := ⟨1, 1, 0⟩,
    source := [{ geometry := ProjectedGeometry.rings [squareRing],
                 type := ProjectedFeatureType.Polygon,
                 min := ⟨0, 0, 0⟩, max := ⟨1, 1, 0⟩ }],
    transformed := false }

/-- A state indexing only the clipped-square root tile. -/
def squareState : GState :=
  { tiles := [(0, squareParent)], options := ⟨18, 5, 100000, 3, 1, 0, false⟩ }

theorem c10_clipped_square_parent_witness :
    (getTile (fun st _ _ _ _ _ _ _ => st) squareState 1 0 0).1 =
      some (transformTile squareParent squareState.options.extent) :=
  c10_clipped_square_parent (fun st _ _ _ _ _ _ _ => st) squareState 1 0 0 0 0 0
    squareParent (by with_unfolding_all decide) (by with_unfolding_all decide)
    (by with_unfolding_all decide) (by with_unfolding_all decide)

/-- A work item of `splitTile`'s explicit stack (`FeatureStackItem`). -/
structure FeatureStackItem where
  features : List ProjectedFeature
  z : Nat
  x : Nat
  y : Nat
  deriving DecidableEq, Repr

/-- The behaviour of `Tile::createTile(features, z2, x, y, tolerance, isMax)`
(its header is not under `src/`; the theorems below hold for every such
function). -/
abbrev CreateTileFn := List ProjectedFeature → Nat → Nat → Nat → ℚ → Bool → Tile

/-- The behaviour of `Clip::clip(features, z2, k1, k2, axis-intersect,
minBound, maxBound)` (its header is not under `src/`; the theorems below
hold for every such function).  Arguments: features, scale `z2`, strip
bounds `k1 < k2`, axis (0 = x with `intersectX`, 1 = y with `intersectY`),
cached feature bbox bounds on that axis. -/
abbrev ClipFn := List ProjectedFeature → Nat → ℚ → ℚ → Nat → ℚ → ℚ → List ProjectedFeature

/-- The chain of stop conditions of `splitTile`'s loop body (the `continue`
statements of lines 200–224): stop on a clipped square when `solidChildren`
is off; in index-build mode (`cz == 0`) stop at `indexMaxZoom` or when the
tile has at most `indexMaxPoints` points; in drill-down mode stop at
`maxZoom`, at the target zoom, or when the tile is not an ancestor of the
target — the C++ compares against `std::floor(cx / m)` where `cx / m` is
already integer division by `m = 1 << (cz - z)`, so the `floor` is the
identity. -/
def splitStop (opts : Options) (cz cx cy : Nat) (tile : Tile) (z x y : Nat) : Bool :=
  if !opts.solidChildren && isClippedSquare tile opts.extent opts.buffer then true
  else if cz = 0 then
    decide (z = opts.indexMaxZoom) || decide (tile.numPoints ≤ opts.indexMaxPoints)
  else if z = opts.maxZoom ∨ z = cz then true
  else decide (x ≠ cx / 2 ^ (cz - z)) || decide (y ≠ cy / 2 ^ (cz - z))

/-- One iteration of `GeoJSONVT::splitTile`'s work loop on a popped stack
item: create the tile if absent (`uint32_t z2 = 1 << z`; the tolerance
divisor `z2 * extent` is a 32-bit product), retain the source features,
stop according to `splitStop`, and otherwise clear the source and push the
(up to four) non-empty children produced by the two clipping passes. -/
def splitTileStep (createT : CreateTileFn) (clip : ClipFn) (opts : Options)
    (cz cx cy : Nat) (tiles : List (Nat × Tile)) (item : FeatureStackItem) :
    List (Nat × Tile) × List FeatureStackItem :=
  let z := item.z
  let x := item.x
  let y := item.y
  let z2 := 2 ^ z % 2 ^ 32
  let id := toID z x y
  let tileTolerance : ℚ :=
    if z = opts.maxZoom then 0 else opts.tolerance / ((z2 * opts.extent % 2 ^ 32 : Nat) : ℚ)
  let found := lookupTile tiles id
  let tile := match found with
    | some t => t
    | none => createT item.features z2 x y tileTolerance (z = opts.maxZoom)
  let tiles1 := match found with
    | some _ => tiles
    | none => insertTile tiles id tile
  let tile1 := { tile with source := item.features }
  if splitStop opts cz cx cy tile1 z x y then (updateTile tiles1 id tile1, [])
  else
    let tile2 := { tile1 with source := [] }
    let k1 : ℚ := 1 / 2 * (opts.buffer : ℚ) / (opts.extent : ℚ)
    let k2 := 1 / 2 - k1
    let k3 := 1 / 2 + k1
    let k4 := 1 + k1
    let left := clip item.features z2 ((x : ℚ) - k1) ((x : ℚ) + k3) 0 tile2.min.x tile2.max.x
    let right := clip item.features z2 ((x : ℚ) + k2) ((x : ℚ) + k4) 0 tile2.min.x tile2.max.x
    let tl := if left ≠ [] then clip left z2 ((y : ℚ) - k1) ((y : ℚ) + k3) 1 tile2.min.y tile2.max.y else []
    let bl := if left ≠ [] then clip left z2 ((y : ℚ) + k2) ((y : ℚ) + k4) 1 tile2.min.y tile2.max.y else []
    let tr := if right ≠ [] then clip right z2 ((y : ℚ) - k1) ((y : ℚ) + k3) 1 tile2.min.y tile2.max.y else []
    let br := if right ≠ [] then clip right z2 ((y : ℚ) + k2) ((y : ℚ) + k4) 1 tile2.min.y tile2.max.y else []
    (updateTile tiles1 id tile2,
      (if tl ≠ [] then [FeatureStackItem.mk tl (z + 1) (x * 2) (y * 2)] else []) ++
      (if bl ≠ [] then [FeatureStackItem.mk bl (z + 1) (x * 2) (y * 2 + 1)] else []) ++
      (if tr ≠ [] then [FeatureStackItem.mk tr (z + 1) (x * 2 + 1) (y * 2)] else []) ++
      (if br ≠ [] then [FeatureStackItem.mk br (z + 1) (x * 2 + 1) (y * 2 + 1)] else []))

/-- C5: for a popped tile whose clipped-square stop does not apply,
subdivision proceeds (`splitStop` is `false`, so `splitTileStep` takes the
clipping branch) exactly when the mode's stop conditions all fail: with
`cz = 0` iff `z ≠ indexMaxZoom` and `numPoints > indexMaxPoints`; in
drill-down mode iff `z ≠ maxZoom`, `z ≠ cz`, and with `m = 2^(cz - z)` both
`x = ⌊cx / m⌋` and `y = ⌊cy / m⌋`. -/
theorem c5_splitStop_iff (opts : Options) (cz cx cy : Nat) (tile : Tile)
    (z x y : Nat)
    (hsq : opts.solidChildren = true ∨
      isClippedSquare tile opts.extent opts.buffer = false)
    (hcz : cz ≠ 0 → z ≤ cz) :
    splitStop opts cz cx cy tile z x y = false ↔
      (if cz = 0 then z ≠ opts.indexMaxZoom ∧ opts.indexMaxPoints < tile.numPoints
       else z ≠ opts.maxZoom ∧ z ≠ cz ∧
         x = cx / 2 ^ (cz - z) ∧ y = cy / 2 ^ (cz - z)) := by
  unfold splitStop
  have h1 : (!opts.solidChildren && isClippedSquare tile opts.extent opts.buffer) = false := by
    rcases hsq with h | h <;> simp [h]
  rw [h1]
  by_cases hc : cz = 0
  · simp [hc, Nat.not_le, and_comm]
  · rw [if_neg (by simp), if_neg hc]
    by_cases hmax : z = opts.maxZoom
    · simp [hmax, hc]
    · by_cases hcz2 : z = cz
      · simp [hcz2, hc]
      · rw [if_neg (by tauto)]
        simp [hmax, hcz2, hc]

theorem c5_splitStop_iff_witness :
    (splitStop ⟨18, 5, 100000, 3, 4096, 64, false⟩ 0 0 0
        { features := [], z2 := 1, tx := 0, ty := 0, numFeatures := 1,
          numPoints := 200000, numSimplified := 5, min := ⟨0, 0, 0⟩,
          max := ⟨1, 1, 0⟩, source := [], transformed := false } 0 0 0 = false ↔
      (if (0 : Nat) = 0 then 0 ≠ 5 ∧ 100000 < 200000
       else 0 ≠ 18 ∧ (0 : Nat) ≠ 0 ∧
         (0 : Nat) = 0 / 2 ^ (0 - 0) ∧ (0 : Nat) = 0 / 2 ^ (0 - 0))) :=
  c5_splitStop_iff ⟨18, 5, 100000, 3, 4096, 64, false⟩ 0 0 0
    { features := [], z2 := 1, tx := 0, ty := 0, numFeatures := 1,
      numPoints := 200000, numSimplified := 5, min := ⟨0, 0, 0⟩,
      max := ⟨1, 1, 0⟩, source := [], transformed := false } 0 0 0
    (Or.inr (by with_unfolding_all decide)) (by decide)

end Tiler

end GeoJsonVt
